import Mathlib

/-!
Verification of `FRustDetailCustomization.cpp` (unreal-rust plugin).

The file under study is UI glue over the Unreal editor detail-customization
API.  We embed it shallowly: every call the code makes into the host API is
recorded as an `Event` in a trace, and the map-typed `Components` property
behind the `ComponentsHandle` is modelled as a list of key/value entries on
which the host calls (`AddItem`, `SetValue` on a key handle,
`FDynamicRustComponent::Initialize` on a child handle) act by explicit state
passing.  The `uint32` out parameter of `GetNumChildren` and the unsigned
subtraction `NumChildren - 1` are `Nat` with explicit `% 4294967296`
(that is, modulo `2 ^ 32`).
-/

/-- The four-component GUID of the host engine (`FGuid`); the picked node
carries one as `Id`. -/
structure FGuid where
  A : Nat
  B : Nat
  C : Nat
  D : Nat
deriving DecidableEq, Repr

/-- Model of `FGuid::ToString`: a definite injective rendering of the four
components.  The code only forwards the resulting string, so any definite
rendering is adequate. -/
def FGuid.toString (g : FGuid) : String :=
  Nat.repr g.A ++ "-" ++ Nat.repr g.B ++ "-" ++ Nat.repr g.C ++ "-" ++ Nat.repr g.D

/-- Model of `FUuidViewNode`: the node handed to the pick callback, carrying
the picked UUID. -/
structure FUuidViewNode where
  Id : FGuid
deriving DecidableEq, Repr

/-- Model of `UEntityComponent`: only its identity matters to this file (the
callback holds a weak pointer to it purely for a null check). -/
structure UEntityComponent where
  id : Nat
deriving DecidableEq, Repr

/-- Model of `UObject` as seen by `GetObjectsBeingCustomized`: either an
entity component or some other object (on which the cast fails). -/
inductive UObject where
  | entity (c : UEntityComponent)
  | other (tag : Nat)
deriving DecidableEq, Repr

/-- Model of `Cast<UEntityComponent>`: succeeds exactly on entity
components. -/
def castEntityComponent : UObject → Option UEntityComponent
  | .entity c => some c
  | .other _ => none

/-- One entry of the map-typed `Components` property: a string key and a
value that `FDynamicRustComponent::Initialize` fills in from a UUID.
`value = none` models the default-constructed value `AddItem` appends. -/
structure MapEntry where
  key : String
  value : Option FGuid
deriving DecidableEq, Repr

/-- Every observable call the code makes into the host API, in program
order.  `logError` and `showDialog` exist so that silence of the guard
paths is a statement about a type that could express failure reports. -/
inductive Event where
  | getObjects
  | getProperty (name : String)
  | editCategory (name : String)
  | addItem
  | numChildrenQuery
  | childHandleQuery (idx : Nat)
  | keyHandleQuery
  | setKey (idx : Nat) (key : String)
  | initValue (idx : Nat) (id : FGuid)
  | forceRefresh
  | render
  | addCustomRow (label : String)
  | logError (msg : String)
  | showDialog (msg : String)
deriving DecidableEq, Repr

/-- A user-visible failure report: the only `Event`s that would surface an
error, a log line or a dialog. -/
def Event.isFailureReport : Event → Bool
  | .logError _ => true
  | .showDialog _ => true
  | _ => false

/-- Recognizes the layout calls of `CustomizeDetails`: fetching a property
handle, registering a category, rendering the collection, adding a row. -/
def Event.isLayoutEffect : Event → Bool
  | .getProperty _ => true
  | .editCategory _ => true
  | .render => true
  | .addCustomRow _ => true
  | _ => false

/-- Recognizes the map-append call `AsMap()->AddItem()`. -/
def Event.isAddItem : Event → Bool
  | .addItem => true
  | _ => false

/-- Recognizes the UI refresh call `ForceRefreshDetails()`. -/
def Event.isForceRefresh : Event → Bool
  | .forceRefresh => true
  | _ => false

/-- Recognizes `SetValue` on a key handle. -/
def Event.isSetKey : Event → Bool
  | .setKey _ _ => true
  | _ => false

/-- Recognizes the call to `FDynamicRustComponent::Initialize`. -/
def Event.isInitValue : Event → Bool
  | .initValue _ _ => true
  | _ => false

/-- `TMap` child count as the host reports it through the `uint32` out
parameter of `GetNumChildren`. -/
def numChildren (m : List MapEntry) : Nat :=
  m.length % 4294967296

/-- The `uint32` subtraction `n - 1` of the source (`NumChildren - 1`):
wraps to `4294967295` when `n % 4294967296 = 0`. -/
def u32sub1 (n : Nat) : Nat :=
  (n % 4294967296 + 4294967295) % 4294967296

/-- Model of `AsMap()->AddItem()`: appends one default-constructed entry. -/
def addItemOp (m : List MapEntry) : List MapEntry :=
  m ++ [⟨"", none⟩]

/-- Apply `f` to the entry at index `i`, leaving every other entry
unchanged (no-op out of range, never exercised past the range guard). -/
def modifyAt : List MapEntry → Nat → (MapEntry → MapEntry) → List MapEntry
  | [], _, _ => []
  | e :: es, 0, f => f e :: es
  | e :: es, n + 1, f => e :: modifyAt es n f

/-- Effect of `KeyProp->SetValue(s)` on the entry owning that key handle. -/
def setEntryKey (s : String) (e : MapEntry) : MapEntry :=
  { e with key := s }

/-- Modelled from the spec: `FDynamicRustComponent::Initialize(ChildProp,
Node->Id)` is declared outside the customization file; per the spec it
initializes the value of the entry behind `ChildProp` from the UUID. -/
def initEntryValue (id : FGuid) (e : MapEntry) : MapEntry :=
  { e with value := some id }

/-- The trace of host calls the body of `OnPicked` makes on its success
path, in program order, for child index `idx` and picked UUID `id`. -/
def onPickedTrace (idx : Nat) (id : FGuid) : List Event :=
  [Event.addItem, Event.numChildrenQuery, Event.childHandleQuery idx,
   Event.keyHandleQuery, Event.setKey idx (FGuid.toString id),
   Event.initValue idx id, Event.forceRefresh]

/-- The `OnPicked` lambda of `CustomizeDetails`.  `Node` is the raw pointer
argument, `Component` the captured weak pointer (null when the cast in
`CustomizeDetails` failed or the object died), `Components` the current map
state behind `ComponentsHandle`.  Returns the new map state and the trace
of host calls; `none` models the null dereference that follows
`GetChildHandle` returning an invalid handle for an out-of-range index. -/
def OnPicked (Node : Option FUuidViewNode) (Component : Option UEntityComponent)
    (Components : List MapEntry) : Option (List MapEntry × List Event) :=
  match Node, Component with
  | some node, some _ =>
    let m1 := addItemOp Components
    let idx := u32sub1 (numChildren m1)
    if idx < m1.length then
      let m2 := modifyAt m1 idx (setEntryKey (FGuid.toString node.Id))
      let m3 := modifyAt m2 idx (initEntryValue node.Id)
      some (m3, onPickedTrace idx node.Id)
    else
      none
  | _, _ => some (Components, [])

/-- Outcome of `CustomizeDetails`: the trace of host calls, whether the
picker row was added, and the component captured by the `OnPicked` lambda
wired into that row. -/
structure CustomizeOutcome where
  trace : List Event
  rowAdded : Bool
  captured : Option UEntityComponent
deriving DecidableEq, Repr

/-- The trace of host calls `CustomizeDetails` makes past its guard, in
program order. -/
def customizeTrace : List Event :=
  [Event.getObjects, Event.getProperty "Components",
   Event.editCategory "Rust", Event.render, Event.addCustomRow "Picker"]

/-- `FRustDetailCustomization::CustomizeDetails`, driven by the object list
`GetObjectsBeingCustomized` fills in.  `none` models a failing element
access `Objects[0]`. -/
def CustomizeDetails (Objects : List UObject) : Option CustomizeOutcome :=
  if Objects.isEmpty then
    some ⟨[Event.getObjects], false, none⟩
  else
    match Objects[0]? with
    | none => none
    | some obj =>
      some ⟨customizeTrace, true, castEntityComponent obj⟩

/-! ## Helper lemmas -/

theorem modifyAt_append_length (m : List MapEntry) (e : MapEntry)
    (f : MapEntry → MapEntry) : modifyAt (m ++ [e]) m.length f = m ++ [f e] := by
  induction m with
  | nil => rfl
  | cons a as ih => simp [modifyAt, ih]

theorem take_append_length (l l' : List MapEntry) : (l ++ l').take l.length = l := by
  induction l with
  | nil => rfl
  | cons x xs ih => simp [List.take_succ_cons, ih]

theorem getElem?_append_length (l : List MapEntry) (a : MapEntry) :
    (l ++ [a])[l.length]? = some a := by
  induction l with
  | nil => rfl
  | cons x xs ih => simp only [List.cons_append, List.length_cons, List.getElem?_cons_succ]; exact ih

theorem OnPicked_some_eq (node : FUuidViewNode) (c : UEntityComponent)
    (m : List MapEntry) (h : m.length + 1 < 4294967296) :
    OnPicked (some node) (some c) m =
      some (m ++ [⟨FGuid.toString node.Id, some node.Id⟩],
        onPickedTrace m.length node.Id) := by
  have hn : numChildren (addItemOp m) = m.length + 1 := by
    simp only [numChildren, addItemOp, List.length_append, List.length_singleton]
    omega
  have hs : u32sub1 (m.length + 1) = m.length := by
    unfold u32sub1
    omega
  have hlen : (addItemOp m).length = m.length + 1 := by
    simp [addItemOp]
  simp only [OnPicked, hn, hs, hlen]
  rw [if_pos (by omega)]
  have h1 : addItemOp m = m ++ [⟨"", none⟩] := rfl
  rw [h1, modifyAt_append_length, modifyAt_append_length]
  rfl

/-! ## Claim theorems -/

/-- C1: for every pick event with a non-null node and a non-null component,
`OnPicked` performs, in this order: exactly one append to the Components
map, the key write on the new entry, the value initialization via
`FDynamicRustComponent::Initialize`, and then exactly one
`ForceRefreshDetails` request.  The trace equality fixes the order, and the
filters show the append and the refresh each occur exactly once. -/
theorem OnPicked_success_sequence (node : FUuidViewNode) (c : UEntityComponent)
    (m : List MapEntry) (h : m.length + 1 < 4294967296) :
    OnPicked (some node) (some c) m =
      some (m ++ [⟨FGuid.toString node.Id, some node.Id⟩],
        onPickedTrace m.length node.Id) ∧
    (onPickedTrace m.length node.Id).filter Event.isAddItem = [Event.addItem] ∧
    (onPickedTrace m.length node.Id).filter Event.isForceRefresh =
      [Event.forceRefresh] :=
  ⟨OnPicked_some_eq node c m h, rfl, rfl⟩

theorem OnPicked_success_sequence_witness :
    OnPicked (some ⟨⟨1, 2, 3, 4⟩⟩) (some ⟨0⟩) [] =
      some ([⟨FGuid.toString ⟨1, 2, 3, 4⟩, some ⟨1, 2, 3, 4⟩⟩],
        onPickedTrace 0 ⟨1, 2, 3, 4⟩) ∧
    (onPickedTrace 0 ⟨1, 2, 3, 4⟩).filter Event.isAddItem = [Event.addItem] ∧
    (onPickedTrace 0 ⟨1, 2, 3, 4⟩).filter Event.isForceRefresh =
      [Event.forceRefresh] :=
  OnPicked_success_sequence ⟨⟨1, 2, 3, 4⟩⟩ ⟨0⟩ [] (by norm_num)

/-- C2: for every pick event in which the node is null or the captured
component is null, `OnPicked` returns with the map state unchanged and an
empty trace: no append, no key write, no initialization, no refresh. -/
theorem OnPicked_nullguard (Node : Option FUuidViewNode)
    (Component : Option UEntityComponent) (m : List MapEntry)
    (h : Node = none ∨ Component = none) :
    OnPicked Node Component m = some (m, []) := by
  cases Node with
  | none => cases Component <;> rfl
  | some n =>
    cases Component with
    | none => rfl
    | some c => rcases h with h | h <;> exact absurd h (by simp)

theorem OnPicked_nullguard_witness :
    OnPicked none (some ⟨0⟩) [⟨"k", none⟩] = some ([⟨"k", none⟩], []) :=
  OnPicked_nullguard none (some ⟨0⟩) [⟨"k", none⟩] (Or.inl rfl)

/-- C3: when `GetObjectsBeingCustomized` yields an empty list,
`CustomizeDetails` returns right after the query: no property handle is
fetched, no category is registered, nothing is rendered and no custom row
is added (the trace holds the objects query alone, and that trace contains
no layout call). -/
theorem CustomizeDetails_empty_noop (Objects : List UObject)
    (h : Objects.isEmpty = true) :
    CustomizeDetails Objects = some ⟨[Event.getObjects], false, none⟩ ∧
    [Event.getObjects].filter Event.isLayoutEffect = [] := by
  refine ⟨?_, rfl⟩
  simp [CustomizeDetails, h]

theorem CustomizeDetails_empty_noop_witness :
    CustomizeDetails [] = some ⟨[Event.getObjects], false, none⟩ ∧
    [Event.getObjects].filter Event.isLayoutEffect = [] :=
  CustomizeDetails_empty_noop [] rfl

/-- C4: on every successful pick, the key written to the appended entry is
exactly `Node->Id.ToString()` and `FDynamicRustComponent::Initialize`
receives that same UUID: the trace holds exactly one key write, carrying
the string form of the picked UUID, and exactly one initialization,
carrying the picked UUID itself; the appended entry is keyed by it. -/
theorem OnPicked_entry_keyed_by_uuid (node : FUuidViewNode)
    (c : UEntityComponent) (m : List MapEntry)
    (h : m.length + 1 < 4294967296) :
    OnPicked (some node) (some c) m =
      some (m ++ [⟨FGuid.toString node.Id, some node.Id⟩],
        onPickedTrace m.length node.Id) ∧
    (onPickedTrace m.length node.Id).filter Event.isSetKey =
      [Event.setKey m.length (FGuid.toString node.Id)] ∧
    (onPickedTrace m.length node.Id).filter Event.isInitValue =
      [Event.initValue m.length node.Id] ∧
    (m ++ [⟨FGuid.toString node.Id, some node.Id⟩])[m.length]? =
      some ⟨FGuid.toString node.Id, some node.Id⟩ :=
  ⟨OnPicked_some_eq node c m h, rfl, rfl, getElem?_append_length m _⟩

theorem OnPicked_entry_keyed_by_uuid_witness :
    OnPicked (some ⟨⟨2, 3, 4, 5⟩⟩) (some ⟨1⟩) [] =
      some ([⟨FGuid.toString ⟨2, 3, 4, 5⟩, some ⟨2, 3, 4, 5⟩⟩],
        onPickedTrace 0 ⟨2, 3, 4, 5⟩) ∧
    (onPickedTrace 0 ⟨2, 3, 4, 5⟩).filter Event.isSetKey =
      [Event.setKey 0 (FGuid.toString ⟨2, 3, 4, 5⟩)] ∧
    (onPickedTrace 0 ⟨2, 3, 4, 5⟩).filter Event.isInitValue =
      [Event.initValue 0 ⟨2, 3, 4, 5⟩] ∧
    ([⟨FGuid.toString ⟨2, 3, 4, 5⟩, some ⟨2, 3, 4, 5⟩⟩] :
      List MapEntry)[0]? = some ⟨FGuid.toString ⟨2, 3, 4, 5⟩, some ⟨2, 3, 4, 5⟩⟩ :=
  OnPicked_entry_keyed_by_uuid ⟨⟨2, 3, 4, 5⟩⟩ ⟨1⟩ [] (by norm_num)

/-- C5: on a non-empty object list, `CustomizeDetails` reads the first
object, and its trace is exactly: the objects query, one property-handle
fetch of `Components`, one registration of the category `Rust`, one render
of the existing collection, and one custom row `Picker`; the picker row is
added and its callback captures the cast of the first object. -/
theorem CustomizeDetails_nonempty_layout (Objects : List UObject)
    (h : Objects.isEmpty = false) :
    CustomizeDetails Objects =
      some ⟨customizeTrace, true, Objects.head?.bind castEntityComponent⟩ ∧
    customizeTrace.filter Event.isLayoutEffect =
      [Event.getProperty "Components", Event.editCategory "Rust",
       Event.render, Event.addCustomRow "Picker"] := by
  refine ⟨?_, rfl⟩
  cases Objects with
  | nil => simp at h
  | cons o os => simp [CustomizeDetails]

theorem CustomizeDetails_nonempty_layout_witness :
    CustomizeDetails [UObject.entity ⟨5⟩] =
      some ⟨customizeTrace, true, some ⟨5⟩⟩ ∧
    customizeTrace.filter Event.isLayoutEffect =
      [Event.getProperty "Components", Event.editCategory "Rust",
       Event.render, Event.addCustomRow "Picker"] :=
  CustomizeDetails_nonempty_layout [UObject.entity ⟨5⟩] rfl

/-- C6: a successful pick mutates only the newly appended last entry: the
new map state is the old entries followed by one new entry, the prefix of
length `m.length` is exactly the old state (every pre-existing key and
value unchanged), and the mutated entry sits at the last index. -/
theorem OnPicked_frame (node : FUuidViewNode) (c : UEntityComponent)
    (m : List MapEntry) (h : m.length + 1 < 4294967296) :
    (OnPicked (some node) (some c) m).map Prod.fst =
      some (m ++ [(⟨FGuid.toString node.Id, some node.Id⟩ : MapEntry)]) ∧
    (m ++ [(⟨FGuid.toString node.Id, some node.Id⟩ : MapEntry)]).take m.length = m ∧
    (m ++ [(⟨FGuid.toString node.Id, some node.Id⟩ : MapEntry)])[m.length]? =
      some ⟨FGuid.toString node.Id, some node.Id⟩ :=
  ⟨by rw [OnPicked_some_eq node c m h]; rfl,
   take_append_length m _, getElem?_append_length m _⟩

theorem OnPicked_frame_witness :
    (OnPicked (some ⟨⟨7, 7, 7, 7⟩⟩) (some ⟨2⟩) [⟨"k0", none⟩]).map Prod.fst =
      some (([⟨"k0", none⟩] : List MapEntry) ++
        [(⟨FGuid.toString ⟨7, 7, 7, 7⟩, some ⟨7, 7, 7, 7⟩⟩ : MapEntry)]) ∧
    (([⟨"k0", none⟩] : List MapEntry) ++
        [(⟨FGuid.toString ⟨7, 7, 7, 7⟩, some ⟨7, 7, 7, 7⟩⟩ : MapEntry)]).take 1 =
      [⟨"k0", none⟩] ∧
    (([⟨"k0", none⟩] : List MapEntry) ++
        [(⟨FGuid.toString ⟨7, 7, 7, 7⟩, some ⟨7, 7, 7, 7⟩⟩ : MapEntry)])[1]? =
      some ⟨FGuid.toString ⟨7, 7, 7, 7⟩, some ⟨7, 7, 7, 7⟩⟩ :=
  OnPicked_frame ⟨⟨7, 7, 7, 7⟩⟩ ⟨2⟩ [⟨"k0", none⟩] (by norm_num)

/-- C7: the guard branches of `OnPicked` (null node or null component) and
of `CustomizeDetails` (empty object list) terminate silently: the traces
they produce contain no error, no log and no dialog event. -/
theorem guard_paths_silent :
    (∀ (Node : Option FUuidViewNode) (Component : Option UEntityComponent)
        (m m' : List MapEntry) (tr : List Event),
      Node = none ∨ Component = none →
      OnPicked Node Component m = some (m', tr) →
      ∀ e ∈ tr, e.isFailureReport = false) ∧
    (∀ (Objects : List UObject) (out : CustomizeOutcome),
      Objects.isEmpty = true →
      CustomizeDetails Objects = some out →
      ∀ e ∈ out.trace, e.isFailureReport = false) := by
  constructor
  · intro Node Component m m' tr hnull heq e he
    have htr : tr = [] := by
      cases Node with
      | none => cases Component <;> (simp [OnPicked] at heq; exact heq.2)
      | some n =>
        cases Component with
        | none => simp [OnPicked] at heq; exact heq.2
        | some c => rcases hnull with h | h <;> exact absurd h (by simp)
    rw [htr] at he
    exact absurd he (by simp)
  · intro Objects out hempty heq e he
    have hout : out = ⟨[Event.getObjects], false, none⟩ := by
      simp [CustomizeDetails, hempty] at heq
      exact heq.symm
    rw [hout] at he
    have : e = Event.getObjects := by simpa using he
    rw [this]
    rfl

theorem guard_paths_silent_witness :
    Event.isFailureReport Event.getObjects = false :=
  guard_paths_silent.2 [] ⟨[Event.getObjects], false, none⟩ rfl rfl
    Event.getObjects (by simp)

/-- C8: the element access `Objects[0]` in `CustomizeDetails` is always in
bounds: the function never reaches the failing-access outcome for any
object list, and past the emptiness guard the access at index 0 succeeds. -/
theorem CustomizeDetails_index_safe (Objects : List UObject) :
    (CustomizeDetails Objects).isSome = true ∧
    (Objects.isEmpty = false → (Objects[0]?).isSome = true) := by
  cases Objects with
  | nil => exact ⟨rfl, by intro h; simp at h⟩
  | cons o os => exact ⟨by simp [CustomizeDetails], fun _ => by simp⟩

theorem CustomizeDetails_index_safe_witness :
    (CustomizeDetails [UObject.other 1]).isSome = true ∧
    (([UObject.other 1] : List UObject)[0]?).isSome = true :=
  ⟨(CustomizeDetails_index_safe [UObject.other 1]).1,
   (CustomizeDetails_index_safe [UObject.other 1]).2 rfl⟩

/-- C9: when the object list is non-empty but its first object is not a
`UEntityComponent` (the cast is null), `CustomizeDetails` still registers
the `Rust` category, still renders, and still adds the picker row; the
callback captures a null component, so every subsequent pick is a silent
no-op through the component null-guard. -/
theorem CustomizeDetails_castnull (Objects : List UObject) (obj : UObject)
    (h0 : Objects.head? = some obj) (h1 : castEntityComponent obj = none) :
    CustomizeDetails Objects = some ⟨customizeTrace, true, none⟩ ∧
    Event.editCategory "Rust" ∈ customizeTrace ∧
    Event.render ∈ customizeTrace ∧
    Event.addCustomRow "Picker" ∈ customizeTrace ∧
    ∀ (Node : Option FUuidViewNode) (m : List MapEntry),
      OnPicked Node none m = some (m, []) := by
  refine ⟨?_, by simp [customizeTrace], by simp [customizeTrace],
    by simp [customizeTrace], ?_⟩
  · cases Objects with
    | nil => simp at h0
    | cons o os =>
      have : o = obj := by simpa using h0
      subst this
      simp [CustomizeDetails, h1]
  · intro Node m
    cases Node <;> rfl

theorem CustomizeDetails_castnull_witness :
    CustomizeDetails [UObject.other 0] = some ⟨customizeTrace, true, none⟩ ∧
    OnPicked (some ⟨⟨9, 9, 9, 9⟩⟩) none [] = some ([], []) := by
  have h := CustomizeDetails_castnull [UObject.other 0] (UObject.other 0) rfl rfl
  exact ⟨h.1, h.2.2.2.2 (some ⟨⟨9, 9, 9, 9⟩⟩) []⟩

/-- C10: the child index of `OnPicked` is the `uint32` value
`NumChildren - 1`.  When `AddItem` leaves at least one child (which it
does for every realistic map size), the index equals the old length: it is
in range and denotes the newly appended entry.  When the reported child
count is zero, the unsigned subtraction wraps to `4294967295`, which is
out of range for every realistic map. -/
theorem childHandle_index_analysis (m : List MapEntry)
    (h : m.length + 1 < 4294967296) :
    (1 ≤ numChildren (addItemOp m) ∧
     u32sub1 (numChildren (addItemOp m)) = m.length ∧
     u32sub1 (numChildren (addItemOp m)) < (addItemOp m).length) ∧
    (u32sub1 0 = 4294967295 ∧
     ∀ k : List MapEntry, k.length < 4294967296 → numChildren k = 0 →
       ¬ u32sub1 (numChildren k) < k.length) := by
  have hlen : (addItemOp m).length = m.length + 1 := by simp [addItemOp]
  have hn : numChildren (addItemOp m) = m.length + 1 := by
    simp only [numChildren, hlen]
    omega
  refine ⟨⟨by omega, ?_, ?_⟩, by unfold u32sub1; omega, ?_⟩
  · rw [hn]; unfold u32sub1; omega
  · rw [hn, hlen]; unfold u32sub1; omega
  · intro k hk h0
    have hk0 : k.length = 0 := by
      simp only [numChildren] at h0
      omega
    rw [h0, hk0]
    unfold u32sub1
    omega

theorem childHandle_index_analysis_witness :
    u32sub1 (numChildren (addItemOp [])) = List.length ([] : List MapEntry) ∧
    u32sub1 0 = 4294967295 := by
  have h := childHandle_index_analysis [] (by norm_num)
  exact ⟨h.1.2.1, h.2.1⟩
